import Mathlib

/-!
Platform-agnostic actions: embedding of `platformagnosticaction.cpp`.

The adapter objects of `platformagnosticaction.cpp` are embedded as records, the
methods as functions on those records.  A method that can abort (a failed
`assert`, `Q_UNREACHABLE()`, a dereferenced null pointer) returns the fault
together with the object as it stood when the method aborted.  Assertions are
taken as enabled.

The toolkit objects the adapters drive (`QAction`, the object created from
`ActionExt.qml`) are kept as property stores indexed by property name, which is
how the source reaches them (`property(...)`, `setProperty(...)`,
`QQmlProperty`).
-/

namespace PlatformAgnosticMenus

/-! ## Strings -/

/-- `QString::isEmpty`. -/
def QString.isEmpty (s : String) : Bool :=
  s.data.isEmpty

/-- `QString::startsWith(QLatin1String)`, case sensitive. -/
def QString.startsWith (s p : String) : Bool :=
  p.data.isPrefixOf s.data

/-- `QString::prepend`. -/
def QString.prepend (s p : String) : String :=
  p ++ s

/-! ## Toolkit values -/

/-- A `QIcon`: the null icon, or an icon with pixmaps behind it. -/
inductive QIcon where
  | null
  | loaded (key : String)
  deriving DecidableEq, Repr

/-- `QIcon::isNull`. -/
def QIcon.isNull : QIcon → Bool
  | .null => true
  | .loaded _ => false

/-- The values of `QVariant` that the source reads or writes. -/
inductive QVariant where
  /-- The invalid variant, which is what `property` gives for a name the object lacks. -/
  | invalid
  | bool (b : Bool)
  | string (s : String)
  | icon (i : QIcon)
  /-- A `QKeySequence`, by its portable text. -/
  | keySequence (k : String)
  /-- A `QObject*` other than an adapter, `none` for `nullptr`. -/
  | object (o : Option Nat)
  /-- The pointer to the adapter that owns the native object
  (`QVariant::fromValue(this)`). -/
  | adapter
  deriving DecidableEq, Repr

/-- `QVariant::toBool`. -/
def QVariant.toBool : QVariant → Bool
  | .bool b => b
  | .string s => !(QString.isEmpty s.toLower || s.toLower == "0" || s.toLower == "false")
  | _ => false

/-- `QVariant::value<QString>()`. -/
def QVariant.toQString : QVariant → String
  | .string s => s
  | .bool true => "true"
  | .bool false => "false"
  | .keySequence k => k
  | _ => ""

/-- Slots and lambdas that the source connects to signals of a native object. -/
inductive Connection where
  /-- The lambda of the `WidgetsAction` constructor, on `QAction::changed`. -/
  | syncVisibility
  /-- `QAction::toggled` forwarded to `PlatformAgnosticAction::toggled`. -/
  | relayToggled
  /-- `QAction::triggered` forwarded to `PlatformAgnosticAction::triggered`. -/
  | relayTriggered
  /-- `toggled(QObject*)` to `QuickControls2Action::onToggled`. -/
  | onToggled
  /-- `triggered(QObject*)` to `QuickControls2Action::onTriggered`. -/
  | onTriggered
  deriving DecidableEq, Repr

/-- A native toolkit object: a `QAction`, or the object made from `ActionExt.qml`. -/
structure NativeObject where
  /-- Whether `inherits("QAction")` holds. -/
  isQAction : Bool
  /-- Whether `inherits("QQuickAction")` holds. -/
  isQQuickAction : Bool
  /-- The property store; `QVariant.invalid` for a name the object lacks. -/
  props : String → QVariant
  /-- Whether `QQmlProperty::isWritable` holds for a property path. -/
  writable : String → Bool
  /-- The connections the source has made on this object, oldest first. -/
  connections : List Connection

/-- `QObject::property`. -/
def NativeObject.property (o : NativeObject) (name : String) : QVariant :=
  o.props name

/-- The bare write of a value into the property store. -/
def NativeObject.store (o : NativeObject) (name : String) (v : QVariant) : NativeObject :=
  { o with props := Function.update o.props name v }

/-- `QAction::text`. -/
def QAction.text (o : NativeObject) : String :=
  (o.property "text").toQString

/-- `QAction::setVisible`.  The `changed` signal it emits re-enters the lambda of
the `WidgetsAction` constructor, which asks for the same flag again and so stops. -/
def QAction.setVisible (o : NativeObject) (b : Bool) : NativeObject :=
  o.store "visible" (.bool b)

/-- The lambda connected to `QAction::changed` in the `WidgetsAction` constructor. -/
def syncVisibility (action : NativeObject) : NativeObject :=
  if QString.isEmpty (QAction.text action) then
    QAction.setVisible action false
  else
    QAction.setVisible action true

/-- Emission of `QAction::changed`: every connected copy of the lambda runs. -/
def emitChanged (o : NativeObject) : NativeObject :=
  (o.connections.filter (· == Connection.syncVisibility)).foldl (fun a _ => syncVisibility a) o

/-- The declared properties of `QAction` whose setters emit `changed`. -/
def QAction.notifying : List String :=
  ["text", "enabled", "checked", "checkable", "visible", "icon", "shortcut", "actionGroup"]

/-- `QObject::setProperty`.  A property setter leaves the object alone when the
value is the one already held; otherwise it stores the value and, on a
`QAction`, emits `changed`.  A name that is not a declared property becomes a
dynamic property and emits nothing. -/
def NativeObject.setProperty (o : NativeObject) (name : String) (v : QVariant) : NativeObject :=
  if o.props name = v then o
  else if o.isQAction && QAction.notifying.contains name then emitChanged (o.store name v)
  else o.store name v

/-- `QQmlProperty::isValid` for a property path on a native object. -/
def QQmlProperty.isValid (o : NativeObject) (path : String) : Bool :=
  o.props path != QVariant.invalid

/-- `QQmlProperty::isWritable`. -/
def QQmlProperty.isWritable (o : NativeObject) (path : String) : Bool :=
  o.writable path

/-- `QQmlProperty::write`: the object afterwards and the returned flag.  The write
goes through when the path names a valid, writable property. -/
def QQmlProperty.write (o : NativeObject) (path : String) (v : QVariant) : NativeObject × Bool :=
  if QQmlProperty.isValid o path && QQmlProperty.isWritable o path then (o.store path v, true)
  else (o, false)

/-- A freshly allocated `QAction`: no text, visible, enabled, not checkable. -/
def QAction.new : NativeObject where
  isQAction := true
  isQQuickAction := false
  props := fun name =>
    if name = "text" then .string ""
    else if name = "visible" then .bool true
    else if name = "enabled" then .bool true
    else if name = "checked" then .bool false
    else if name = "checkable" then .bool false
    else if name = "icon" then .icon .null
    else if name = "shortcut" then .keySequence ""
    else if name = "actionGroup" then .object none
    else .invalid
  writable := fun _ => true
  connections := []

/-- `QObject::connect` as far as the source uses it: one more connection on the object. -/
def NativeObject.connect (o : NativeObject) (c : Connection) : NativeObject :=
  { o with connections := o.connections ++ [c] }

/-! ## Parents and groups -/

/-- The QML side of a scene-graph parent: what `qmlEngine` and the creation of the
action component give for it. -/
structure QuickParent where
  /-- Whether `qmlEngine(quickParent)` is non-null. -/
  hasEngine : Bool
  /-- The result of `m_actionComponent->create(qmlContext(quickParent))`. -/
  created : Option NativeObject

/-- A non-null parent handed to the factory, by its dynamic class.  The five
recognised classes are unrelated, so an object is of one of them at most. -/
inductive Parent where
  | widgetsMenu
  /-- A `QuickControls2Menu`, with the object its call operator returns. -/
  | quickControls2Menu (quick : Option QuickParent)
  | widgetsActionGroup
  /-- A `QuickControls2ActionGroup`, with the object its call operator returns. -/
  | quickControls2ActionGroup (quick : Option QuickParent)
  /-- A `QQuickItem`, with its own QML side. -/
  | quickItem (quick : QuickParent)
  /-- Any other `QObject`. -/
  | other

/-- The concrete class of a `PlatformAgnosticActionGroup`. -/
inductive GroupClass where
  | widgetsActionGroup
  | quickControls2ActionGroup
  | other
  deriving DecidableEq, Repr

/-- A `PlatformAgnosticActionGroup` with its member `m_actionGroup`, the native group. -/
structure PlatformAgnosticActionGroup where
  cls : GroupClass
  m_actionGroup : Option Nat
  deriving DecidableEq, Repr

/-! ## The adapter -/

/-- The two concrete classes behind `PlatformAgnosticAction`. -/
inductive Backend where
  | widgetsAction
  | quickControls2Action
  deriving DecidableEq, Repr

/-- The ways a call can abort. -/
inductive Fault where
  /-- A failed `assert`. -/
  | assertion
  /-- `Q_UNREACHABLE()` was reached. -/
  | unreachable
  /-- A member was read through a null pointer. -/
  | nullDereference
  deriving DecidableEq, Repr

/-- The abstract events of `PlatformAgnosticAction`. -/
inductive Event where
  | triggered (checked : Bool)
  | toggled (checked : Bool)
  deriving DecidableEq, Repr

/-- An adapter object: the fields of `PlatformAgnosticAction` plus the `m_action`
pointer of its concrete class (`none` for a null pointer). -/
structure PlatformAgnosticAction where
  backend : Backend
  /-- The `QObject` parent. -/
  parent : Option Parent
  m_text : String
  m_data : QVariant
  m_action : Option NativeObject

/-- What a call leaves behind: the fault it aborted with, if any, and the object
as it stood when the call returned or aborted. -/
structure Outcome where
  fault : Option Fault
  self : PlatformAgnosticAction

/-- A call that returned. -/
def Outcome.done (self : PlatformAgnosticAction) : Outcome :=
  ⟨none, self⟩

/-- A call that aborted. -/
def Outcome.abort (f : Fault) (self : PlatformAgnosticAction) : Outcome :=
  ⟨some f, self⟩

/-- Whether the call returned. -/
def Outcome.completed (r : Outcome) : Bool :=
  r.fault.isNone

namespace PlatformAgnosticAction

/-- `PlatformAgnosticAction::PlatformAgnosticAction(QObject *parent)`. -/
def new (backend : Backend) (parent : Option Parent) : PlatformAgnosticAction where
  backend := backend
  parent := parent
  m_text := ""
  m_data := .invalid
  m_action := none

/-- The virtual `action()`, which both classes implement as `m_action.data()`. -/
def action (self : PlatformAgnosticAction) : Option NativeObject :=
  self.m_action

/-- `PlatformAgnosticAction::isVisible`. -/
def isVisible (self : PlatformAgnosticAction) : Bool :=
  QString.isEmpty self.m_text

/-- `PlatformAgnosticAction::text`. -/
def text (self : PlatformAgnosticAction) : Except Fault String :=
  match self.action with
  | none => .error .assertion
  | some a => .ok (a.property "text").toQString

/-- `PlatformAgnosticAction::setText`. -/
def setText (self : PlatformAgnosticAction) (text : String) : Outcome :=
  match self.action with
  | none => .abort .assertion self
  | some a =>
    if self.isVisible then
      .done { self with m_action := some (a.setProperty "text" (.string text)) }
    else
      .done { self with m_text := text }

/-- `PlatformAgnosticAction::setVisible`. -/
def setVisible (self : PlatformAgnosticAction) (_visible : Bool) : Outcome :=
  if self.isVisible == _visible then
    .done self
  else if _visible then
    let text := self.m_text
    setText { self with m_text := "" } text
  else
    match self.text with
    | .error f => .abort f self
    | .ok t => setText { self with m_text := t } ""

/-- `PlatformAgnosticAction::setEnabled`. -/
def setEnabled (self : PlatformAgnosticAction) (enabled : Bool) : Outcome :=
  match self.action with
  | none => .abort .assertion self
  | some a => .done { self with m_action := some (a.setProperty "enabled" (.bool enabled)) }

/-- `PlatformAgnosticAction::setChecked`. -/
def setChecked (self : PlatformAgnosticAction) (checked : Bool) : Outcome :=
  match self.action with
  | none => .abort .assertion self
  | some a => .done { self with m_action := some (a.setProperty "checked" (.bool checked)) }

/-- `PlatformAgnosticAction::setCheckable`. -/
def setCheckable (self : PlatformAgnosticAction) (checkable : Bool) : Outcome :=
  match self.action with
  | none => .abort .assertion self
  | some a => .done { self with m_action := some (a.setProperty "checkable" (.bool checkable)) }

/-- `PlatformAgnosticAction::setData`. -/
def setData (self : PlatformAgnosticAction) (data : QVariant) : Outcome :=
  if self.m_data ≠ data then .done { self with m_data := data } else .done self

/-- `PlatformAgnosticAction::data`. -/
def data (self : PlatformAgnosticAction) : QVariant :=
  self.m_data

end PlatformAgnosticAction

/-! ## The widget-backed adapter -/

/-- Icon lookup of the toolkit: `QIcon(path)`, `QIcon::hasThemeIcon` and
`QIcon::fromTheme` for the active theme. -/
structure IconResolver where
  fromFile : String → QIcon
  hasThemeIcon : String → Bool
  fromTheme : String → QIcon

/-- `QAction::isVisible`, the native visibility flag. -/
def QAction.isVisible (o : NativeObject) : Bool :=
  (o.property "visible").toBool

/-- `QAction::setShortcut`. -/
def QAction.setShortcut (o : NativeObject) (shortcut : String) : NativeObject :=
  o.setProperty "shortcut" (.keySequence shortcut)

/-- `QAction::setActionGroup`. -/
def QAction.setActionGroup (o : NativeObject) (group : Option Nat) : NativeObject :=
  o.setProperty "actionGroup" (.object group)

/-- `QAction::setIcon`, which stores the icon and emits `changed` in any case. -/
def QAction.setIcon (o : NativeObject) (icon : QIcon) : NativeObject :=
  emitChanged (o.store "icon" (.icon icon))

/-- `QAction::icon`. -/
def QAction.icon (o : NativeObject) : QVariant :=
  o.property "icon"

namespace WidgetsAction

/-- `WidgetsAction::WidgetsAction(QObject *parent)`. -/
def new (parent : Option Parent) : PlatformAgnosticAction :=
  let action := QAction.new
  let action := action.connect .syncVisibility
  let action := action.connect .relayToggled
  let action := action.connect .relayTriggered
  { PlatformAgnosticAction.new .widgetsAction parent with
    m_action := some (action.setProperty "platformAgnosticAction" .adapter) }

/-- `WidgetsAction::setShortcut`. -/
def setShortcut (self : PlatformAgnosticAction) (shortcut : String) : Outcome :=
  match self.m_action with
  | none => .abort .assertion self
  | some a => .done { self with m_action := some (QAction.setShortcut a shortcut) }

/-- `WidgetsAction::setActionGroup`.  After the two assertions the member
`m_actionGroup` is read through the group pointer, whatever the pointer is. -/
def setActionGroup (self : PlatformAgnosticAction)
    (actionGroup : Option PlatformAgnosticActionGroup) : Outcome :=
  let castOk : Bool :=
    match actionGroup with
    | some g => g.cls == GroupClass.widgetsActionGroup
    | none => true
  if !castOk then .abort .assertion self
  else
    match self.m_action with
    | none => .abort .assertion self
    | some a =>
      match actionGroup with
      | none => .abort .nullDereference self
      | some g => .done { self with m_action := some (QAction.setActionGroup a g.m_actionGroup) }

/-- `WidgetsAction::setIcon`. -/
def setIcon (icons : IconResolver) (self : PlatformAgnosticAction)
    (iconSourceOrName : String) (isSource : Bool) : Outcome :=
  match self.m_action with
  | none => .abort .assertion self
  | some a =>
    let icon : Except Fault QIcon :=
      if isSource then .ok (icons.fromFile iconSourceOrName)
      else if !icons.hasThemeIcon iconSourceOrName then .error .assertion
      else .ok (icons.fromTheme iconSourceOrName)
    match icon with
    | .error f => .abort f self
    | .ok icon =>
      if icon.isNull then .abort .assertion self
      else .done { self with m_action := some (QAction.setIcon a icon) }

/-- `WidgetsAction::setAction`. -/
def setAction (self : PlatformAgnosticAction) (action : Option NativeObject) : Outcome :=
  match action with
  | none => .abort .assertion self
  | some a =>
    if !a.isQAction then .abort .assertion self
    else .done { self with m_action := some a }

end WidgetsAction

/-! ## The scene-graph-backed adapter -/

namespace QuickControls2Action

/-- `QuickControls2Action::QuickControls2Action(QObject *quickParent, QObject *parent)`. -/
def new (quickParent : Option QuickParent) (parent : Option Parent) :
    Except Fault PlatformAgnosticAction :=
  match quickParent with
  | none => .error .assertion
  | some q =>
    if !q.hasEngine then .error .assertion
    else
      match q.created with
      | none => .error .assertion
      | some a =>
        if !a.isQQuickAction then .error .assertion
        else
          let a := a.connect .onToggled
          let a := a.connect .onTriggered
          .ok { PlatformAgnosticAction.new .quickControls2Action parent with
                m_action := some (a.setProperty "platformAgnosticAction" .adapter) }

/-- `QuickControls2Action::setShortcut`. -/
def setShortcut (self : PlatformAgnosticAction) (shortcut : String) : Outcome :=
  match self.m_action with
  | none => .abort .assertion self
  | some a =>
    let w := QQmlProperty.write a "shortcut" (.keySequence shortcut)
    if !w.2 then .abort .assertion { self with m_action := some w.1 }
    else .done { self with m_action := some w.1 }

/-- `QuickControls2Action::setActionGroup`. -/
def setActionGroup (self : PlatformAgnosticAction)
    (actionGroup : Option PlatformAgnosticActionGroup) : Outcome :=
  let castOk : Bool :=
    match actionGroup with
    | some g => g.cls == GroupClass.quickControls2ActionGroup
    | none => true
  if !castOk then .abort .assertion self
  else
    match self.m_action with
    | none => .abort .assertion self
    | some a =>
      let group : Option Nat :=
        match actionGroup with
        | some g => g.m_actionGroup
        | none => none
      let w := QQmlProperty.write a "ActionGroup.group" (.object group)
      if !w.2 then .abort .assertion { self with m_action := some w.1 }
      else .done { self with m_action := some w.1 }

/-- The path normalisation inside `QuickControls2Action::setIcon` for
`isSource == true`: the `qrc` scheme is put in front unless it is there already. -/
def normalizeSource (_iconSourceOrName : String) : String :=
  let iconSourceOrName := _iconSourceOrName
  let qrc := "qrc"
  if !QString.startsWith iconSourceOrName qrc then QString.prepend iconSourceOrName qrc
  else iconSourceOrName

/-- `QuickControls2Action::setIcon`. -/
def setIcon (self : PlatformAgnosticAction) (_iconSourceOrName : String) (isSource : Bool) :
    Outcome :=
  match self.m_action with
  | none => .abort .assertion self
  | some a =>
    let suffixSource := "source"
    let suffixName := "name"
    let iconSourceOrName := if isSource then normalizeSource _iconSourceOrName else _iconSourceOrName
    let suffix := if isSource then suffixSource else suffixName
    let property := "icon." ++ suffix
    if !(QQmlProperty.isValid a property && QQmlProperty.isWritable a property) then
      .abort .assertion self
    else
      let w := QQmlProperty.write a property (.string iconSourceOrName)
      if !w.2 then .abort .assertion { self with m_action := some w.1 }
      else .done { self with m_action := some w.1 }

/-- `QuickControls2Action::setAction`. -/
def setAction (self : PlatformAgnosticAction) (action : Option NativeObject) : Outcome :=
  match action with
  | none => .abort .assertion self
  | some a =>
    if !a.isQQuickAction then .abort .assertion self
    else .done { self with m_action := some a }

/-- `QuickControls2Action::onTriggered`: the abstract events the slot emits. -/
def onTriggered (self : PlatformAgnosticAction) : Except Fault (List Event) :=
  match self.m_action with
  | none => .error .nullDereference
  | some a => .ok [Event.triggered (a.property "checked").toBool]

/-- `QuickControls2Action::onToggled`: the abstract events the slot emits. -/
def onToggled (self : PlatformAgnosticAction) : Except Fault (List Event) :=
  match self.m_action with
  | none => .error .nullDereference
  | some a => .ok [Event.toggled (a.property "toggled").toBool]

end QuickControls2Action

/-! ## Factory -/

namespace PlatformAgnosticAction

/-- `PlatformAgnosticAction::fromAction(QAction *action)`. -/
def fromAction (action : Option NativeObject) : Except Fault PlatformAgnosticAction :=
  match action with
  | none => .error .assertion
  | some a =>
    let widgetsAction := WidgetsAction.new none
    let r := WidgetsAction.setAction widgetsAction (some a)
    match r.fault with
    | some f => .error f
    | none =>
      let a := a.connect .relayToggled
      let a := a.connect .relayTriggered
      .ok { r.self with m_action := some (a.setProperty "platformAgnosticAction" .adapter) }

/-- `PlatformAgnosticAction::createAction(QObject *parent)`. -/
def createAction (parent : Option Parent) : Except Fault PlatformAgnosticAction :=
  match parent with
  | none => .ok (WidgetsAction.new none)
  | some .widgetsMenu => .ok (WidgetsAction.new parent)
  | some (.quickControls2Menu quick) => QuickControls2Action.new quick parent
  | some .widgetsActionGroup => .ok (WidgetsAction.new parent)
  | some (.quickControls2ActionGroup quick) => QuickControls2Action.new quick parent
  | some (.quickItem quick) => QuickControls2Action.new (some quick) parent
  | some .other => .error .unreachable

/-- `PlatformAgnosticAction::createAction(const QString& text, QObject *parent)`. -/
def createActionWithText (text : String) (parent : Option Parent) :
    Except Fault PlatformAgnosticAction :=
  match createAction parent with
  | .error f => .error f
  | .ok action =>
    let r := action.setText text
    match r.fault with
    | some f => .error f
    | none => .ok r.self

end PlatformAgnosticAction

/-! ## Calls and reachable states -/

/-- A call of one of the setters of the adapter interface. -/
inductive Call where
  | setText (text : String)
  | setVisible (visible : Bool)
  | setData (data : QVariant)
  | setEnabled (enabled : Bool)
  | setChecked (checked : Bool)
  | setCheckable (checkable : Bool)
  | setShortcut (shortcut : String)
  | setActionGroup (actionGroup : Option PlatformAgnosticActionGroup)
  | setIcon (icons : IconResolver) (iconSourceOrName : String) (isSource : Bool)

/-- A call on an adapter, the virtual setters resolved by the concrete class. -/
def perform (self : PlatformAgnosticAction) : Call → Outcome
  | .setText text => self.setText text
  | .setVisible visible => self.setVisible visible
  | .setData data => self.setData data
  | .setEnabled enabled => self.setEnabled enabled
  | .setChecked checked => self.setChecked checked
  | .setCheckable checkable => self.setCheckable checkable
  | .setShortcut shortcut =>
    match self.backend with
    | .widgetsAction => WidgetsAction.setShortcut self shortcut
    | .quickControls2Action => QuickControls2Action.setShortcut self shortcut
  | .setActionGroup actionGroup =>
    match self.backend with
    | .widgetsAction => WidgetsAction.setActionGroup self actionGroup
    | .quickControls2Action => QuickControls2Action.setActionGroup self actionGroup
  | .setIcon icons iconSourceOrName isSource =>
    match self.backend with
    | .widgetsAction => WidgetsAction.setIcon icons self iconSourceOrName isSource
    | .quickControls2Action => QuickControls2Action.setIcon self iconSourceOrName isSource

/-- An adapter as one of the constructors or factories hands it out. -/
inductive Constructed : PlatformAgnosticAction → Prop where
  | widgets (parent : Option Parent) : Constructed (WidgetsAction.new parent)
  | quickControls2 (quickParent : Option QuickParent) (parent : Option Parent)
      (s : PlatformAgnosticAction) :
      QuickControls2Action.new quickParent parent = .ok s → Constructed s
  | fromAction (action : Option NativeObject) (s : PlatformAgnosticAction) :
      PlatformAgnosticAction.fromAction action = .ok s → Constructed s

/-- The states an adapter reaches from `init` through calls that returned. -/
inductive ReachableFrom (init : PlatformAgnosticAction) : PlatformAgnosticAction → Prop where
  | start : ReachableFrom init init
  | call (s : PlatformAgnosticAction) (c : Call) :
      ReachableFrom init s → (perform s c).completed = true →
      ReachableFrom init (perform s c).self

/-- The native text of an adapter, when the native object is there. -/
def nativeText (self : PlatformAgnosticAction) : Option String :=
  self.m_action.map QAction.text

/-- The native visibility flag of an adapter, when the native object is there. -/
def nativeVisible (self : PlatformAgnosticAction) : Option Bool :=
  self.m_action.map QAction.isVisible

/-- The native icon of an adapter, when the native object is there. -/
def nativeIcon (self : PlatformAgnosticAction) : Option QVariant :=
  self.m_action.map QAction.icon

/-- What a call keeps of an adapter whose text cache is empty: the empty cache,
the concrete class, and the native object with its class and connections. -/
def Kept (s s' : PlatformAgnosticAction) : Prop :=
  s'.m_text = "" ∧ s'.backend = s.backend ∧
  ∀ a, s.m_action = some a →
    ∃ b, s'.m_action = some b ∧ b.connections = a.connections ∧ b.isQAction = a.isQAction

/-! ## The factory, by the class of the parent -/

/-- Whether a parent is of one of the five classes the factory recognises. -/
def Parent.recognised : Parent → Bool
  | .other => false
  | _ => true

/-- For a parent of one of the three scene-graph classes, the object the factory
hands to the `QuickControls2Action` constructor as `quickParent`. -/
def Parent.quickParent : Parent → Option (Option QuickParent)
  | .quickControls2Menu quick => some quick
  | .quickControls2ActionGroup quick => some quick
  | .quickItem quick => some (some quick)
  | _ => none

/-- Whether the assertions of the `QuickControls2Action` constructor all hold for
a `quickParent`: it is non-null, it has a QML engine, and the component creates
an object that inherits `QQuickAction`. -/
def QuickControls2Action.constructible (quickParent : Option QuickParent) : Bool :=
  match quickParent with
  | none => false
  | some q =>
    q.hasEngine &&
      match q.created with
      | none => false
      | some a => a.isQQuickAction

/-- Whether a call returned an adapter. -/
def returned (r : Except Fault PlatformAgnosticAction) : Bool :=
  match r with
  | .ok _ => true
  | .error _ => false

/-! ## Sample objects -/

/-- A widget-backed action made by the factory and given the text `File`. -/
def fileAction : PlatformAgnosticAction :=
  ((WidgetsAction.new none).setText "File").self

/-- Modelled from the spec: the object `ActionExt.qml` creates, a native
scene-graph action with the properties the adapter writes and reads.  It has no
property named `toggled`; on the native action that name is a signal. -/
def QQuickAction.new : NativeObject where
  isQAction := false
  isQQuickAction := true
  props := fun name =>
    if name = "text" then .string ""
    else if name = "enabled" then .bool true
    else if name = "checked" then .bool false
    else if name = "checkable" then .bool false
    else if name = "shortcut" then .keySequence ""
    else if name = "icon.name" then .string ""
    else if name = "icon.source" then .string ""
    else if name = "ActionGroup.group" then .object none
    else .invalid
  writable := fun _ => true
  connections := []

/-- A scene-graph item that lives in a QML engine. -/
def engineItem : QuickParent :=
  { hasEngine := true, created := some QQuickAction.new }

/-- A scene-graph item made outside of any QML engine. -/
def engineLessItem : QuickParent :=
  { hasEngine := false, created := none }

/-- The scene-graph action the factory builds on `engineItem`. -/
def quickAction : PlatformAgnosticAction :=
  { PlatformAgnosticAction.new .quickControls2Action (some (.quickItem engineItem)) with
    m_action := some (((QQuickAction.new.connect .onToggled).connect .onTriggered).setProperty
      "platformAgnosticAction" .adapter) }

/-- The scene-graph action `quickAction`, made checkable and then checked. -/
def checkedQuickAction : PlatformAgnosticAction :=
  ((quickAction.setCheckable true).self.setChecked true).self

/-- A `QAction` of the application with the text `Open`, as `new QAction("Open")`
makes it. -/
def openAction : NativeObject :=
  QAction.new.store "text" (.string "Open")

/-- The adapter `fromAction` puts around `openAction`. -/
def wrappedOpenAction : PlatformAgnosticAction :=
  { PlatformAgnosticAction.new .widgetsAction none with
    m_action := some (((openAction.connect .relayToggled).connect .relayTriggered).setProperty
      "platformAgnosticAction" .adapter) }

/-- An icon lookup that knows the file `:/open.png` and the theme name `document-open`. -/
def sampleIcons : IconResolver where
  fromFile := fun path => if path = ":/open.png" then .loaded ":/open.png" else .null
  hasThemeIcon := fun name => name == "document-open"
  fromTheme := fun name => if name = "document-open" then .loaded "theme:document-open" else .null

/-! ## Lemmas on strings and the property store -/

open PlatformAgnosticAction

theorem QString.isEmpty_iff (s : String) : QString.isEmpty s = true ↔ s = "" := by
  constructor
  · intro h
    cases s with
    | mk l =>
      cases l with
      | nil => rfl
      | cons c cs => simp [QString.isEmpty] at h
  · intro h
    subst h
    rfl

theorem QString.isEmpty_empty : QString.isEmpty "" = true := rfl

theorem syncVisibility_props (o : NativeObject) (name : String) (h : name ≠ "visible") :
    (syncVisibility o).props name = o.props name := by
  unfold syncVisibility QAction.setVisible NativeObject.store
  split <;> simp [Function.update, h]

theorem syncVisibility_connections (o : NativeObject) :
    (syncVisibility o).connections = o.connections := by
  unfold syncVisibility QAction.setVisible NativeObject.store
  split <;> rfl

theorem syncVisibility_isQAction (o : NativeObject) :
    (syncVisibility o).isQAction = o.isQAction := by
  unfold syncVisibility QAction.setVisible NativeObject.store
  split <;> rfl

theorem syncVisibility_visible (o : NativeObject) :
    (syncVisibility o).props "visible" = .bool (!QString.isEmpty (QAction.text o)) := by
  unfold syncVisibility QAction.setVisible NativeObject.store
  split <;> simp_all [Function.update]

theorem foldl_sync_props (l : List Connection) (o : NativeObject) (name : String)
    (h : name ≠ "visible") :
    (l.foldl (fun a _ => syncVisibility a) o).props name = o.props name := by
  induction l generalizing o with
  | nil => rfl
  | cons c cs ih => simp [List.foldl, ih, syncVisibility_props o name h]

theorem foldl_sync_connections (l : List Connection) (o : NativeObject) :
    (l.foldl (fun a _ => syncVisibility a) o).connections = o.connections := by
  induction l generalizing o with
  | nil => rfl
  | cons c cs ih => simp [List.foldl, ih, syncVisibility_connections]

theorem foldl_sync_isQAction (l : List Connection) (o : NativeObject) :
    (l.foldl (fun a _ => syncVisibility a) o).isQAction = o.isQAction := by
  induction l generalizing o with
  | nil => rfl
  | cons c cs ih => simp [List.foldl, ih, syncVisibility_isQAction]

theorem foldl_sync_visible (l : List Connection) (o : NativeObject) (hl : l ≠ []) :
    (l.foldl (fun a _ => syncVisibility a) o).props "visible"
      = .bool (!QString.isEmpty (QAction.text o)) := by
  induction l generalizing o with
  | nil => exact absurd rfl hl
  | cons c cs ih =>
    cases cs with
    | nil => simp [List.foldl, syncVisibility_visible]
    | cons d ds =>
      have := ih (syncVisibility o) (by simp)
      simp only [List.foldl] at this ⊢
      rw [this]
      simp [QAction.text, NativeObject.property, syncVisibility_props o "text" (by decide)]

theorem emitChanged_props (o : NativeObject) (name : String) (h : name ≠ "visible") :
    (emitChanged o).props name = o.props name :=
  foldl_sync_props _ o name h

theorem emitChanged_connections (o : NativeObject) :
    (emitChanged o).connections = o.connections :=
  foldl_sync_connections _ o

theorem emitChanged_isQAction (o : NativeObject) :
    (emitChanged o).isQAction = o.isQAction :=
  foldl_sync_isQAction _ o

theorem emitChanged_visible (o : NativeObject) (h : Connection.syncVisibility ∈ o.connections) :
    (emitChanged o).props "visible" = .bool (!QString.isEmpty (QAction.text o)) := by
  apply foldl_sync_visible
  intro hnil
  have : Connection.syncVisibility ∈ o.connections.filter (· == Connection.syncVisibility) := by
    simp [List.mem_filter, h]
  rw [hnil] at this
  simp at this

theorem store_props_same (o : NativeObject) (name : String) (v : QVariant) :
    (o.store name v).props name = v := by
  simp [NativeObject.store]

theorem store_props_ne (o : NativeObject) (name other : String) (v : QVariant)
    (h : other ≠ name) : (o.store name v).props other = o.props other := by
  simp [NativeObject.store, Function.update, h]

theorem setProperty_props_same (o : NativeObject) (name : String) (v : QVariant)
    (h : name ≠ "visible") : (o.setProperty name v).props name = v := by
  unfold NativeObject.setProperty
  split
  · assumption
  · split
    · rw [emitChanged_props _ _ h, store_props_same]
    · exact store_props_same o name v

theorem setProperty_props_ne (o : NativeObject) (name other : String) (v : QVariant)
    (h : other ≠ name) (hv : other ≠ "visible") :
    (o.setProperty name v).props other = o.props other := by
  unfold NativeObject.setProperty
  split
  · rfl
  · split
    · rw [emitChanged_props _ _ hv, store_props_ne _ _ _ _ h]
    · exact store_props_ne o name other v h

theorem setProperty_connections (o : NativeObject) (name : String) (v : QVariant) :
    (o.setProperty name v).connections = o.connections := by
  unfold NativeObject.setProperty
  split
  · rfl
  · split
    · rw [emitChanged_connections]; rfl
    · rfl

theorem setProperty_isQAction (o : NativeObject) (name : String) (v : QVariant) :
    (o.setProperty name v).isQAction = o.isQAction := by
  unfold NativeObject.setProperty
  split
  · rfl
  · split
    · rw [emitChanged_isQAction]; rfl
    · rfl

theorem write_wiring (o : NativeObject) (path : String) (v : QVariant) :
    (QQmlProperty.write o path v).1.connections = o.connections ∧
    (QQmlProperty.write o path v).1.isQAction = o.isQAction := by
  unfold QQmlProperty.write
  split <;> exact ⟨rfl, rfl⟩

theorem setIcon_wiring (o : NativeObject) (i : QIcon) :
    (QAction.setIcon o i).connections = o.connections ∧
    (QAction.setIcon o i).isQAction = o.isQAction := by
  unfold QAction.setIcon
  rw [emitChanged_connections, emitChanged_isQAction]
  exact ⟨rfl, rfl⟩

theorem Kept.refl (s : PlatformAgnosticAction) (h : s.m_text = "") : Kept s s :=
  ⟨h, rfl, fun a ha => ⟨a, ha, rfl, rfl⟩⟩

theorem kept_native (s : PlatformAgnosticAction) (a b : NativeObject) (h : s.m_text = "")
    (ha : s.m_action = some a) (hc : b.connections = a.connections)
    (hq : b.isQAction = a.isQAction) :
    Kept s { s with m_action := some b } :=
  ⟨h, rfl, fun a' ha' => ⟨b, rfl, by
    rw [ha] at ha'
    cases ha'
    exact ⟨hc, hq⟩⟩⟩

theorem kept_setProperty (s : PlatformAgnosticAction) (a : NativeObject) (name : String)
    (v : QVariant) (h : s.m_text = "") (ha : s.m_action = some a) :
    Kept s { s with m_action := some (a.setProperty name v) } :=
  kept_native s a _ h ha (setProperty_connections a name v) (setProperty_isQAction a name v)

theorem isVisible_of_empty (s : PlatformAgnosticAction) (h : s.m_text = "") :
    s.isVisible = true := by
  simp [PlatformAgnosticAction.isVisible, h, QString.isEmpty_empty]

theorem setText_kept (s : PlatformAgnosticAction) (t : String) (h : s.m_text = "") :
    Kept s (s.setText t).self := by
  unfold PlatformAgnosticAction.setText PlatformAgnosticAction.action
  cases ha : s.m_action with
  | none => exact Kept.refl s h
  | some a =>
    simp only [isVisible_of_empty s h, if_true, Outcome.done]
    exact kept_setProperty s a _ _ h ha

theorem setVisible_kept (s : PlatformAgnosticAction) (v : Bool) (h : s.m_text = "") :
    Kept s (s.setVisible v).self := by
  unfold PlatformAgnosticAction.setVisible
  rw [isVisible_of_empty s h]
  cases v with
  | true => exact Kept.refl s h
  | false =>
    simp only [Bool.true_beq, Bool.false_eq_true, if_false]
    unfold PlatformAgnosticAction.text PlatformAgnosticAction.action
    cases ha : s.m_action with
    | none => exact Kept.refl s h
    | some a =>
      simp only
      unfold PlatformAgnosticAction.setText PlatformAgnosticAction.action
      simp only [ha, PlatformAgnosticAction.isVisible]
      by_cases hv : QString.isEmpty (a.property "text").toQString = true
      · rw [if_pos hv]
        have ht : (a.property "text").toQString = "" := (QString.isEmpty_iff _).1 hv
        refine ⟨ht, rfl, fun a' ha' => ⟨_, rfl, ?_⟩⟩
        rw [ha] at ha'
        cases ha'
        exact ⟨setProperty_connections _ _ _, setProperty_isQAction _ _ _⟩
      · rw [if_neg hv]
        exact ⟨rfl, rfl, fun a' ha' => ⟨a, rfl, by rw [ha] at ha'; cases ha'; exact ⟨rfl, rfl⟩⟩⟩

theorem perform_kept (s : PlatformAgnosticAction) (c : Call) (h : s.m_text = "") :
    Kept s (perform s c).self := by
  cases c with
  | setText t => exact setText_kept s t h
  | setVisible v => exact setVisible_kept s v h
  | setData d =>
    simp only [perform, PlatformAgnosticAction.setData]
    split
    · exact ⟨h, rfl, fun a ha => ⟨a, ha, rfl, rfl⟩⟩
    · exact Kept.refl s h
  | setEnabled b =>
    simp only [perform, PlatformAgnosticAction.setEnabled, PlatformAgnosticAction.action]
    cases ha : s.m_action with
    | none => exact Kept.refl s h
    | some a => exact kept_setProperty s a _ _ h ha
  | setChecked b =>
    simp only [perform, PlatformAgnosticAction.setChecked, PlatformAgnosticAction.action]
    cases ha : s.m_action with
    | none => exact Kept.refl s h
    | some a => exact kept_setProperty s a _ _ h ha
  | setCheckable b =>
    simp only [perform, PlatformAgnosticAction.setCheckable, PlatformAgnosticAction.action]
    cases ha : s.m_action with
    | none => exact Kept.refl s h
    | some a => exact kept_setProperty s a _ _ h ha
  | setShortcut k =>
    simp only [perform]
    cases s.backend with
    | widgetsAction =>
      simp only [WidgetsAction.setShortcut]
      cases ha : s.m_action with
      | none => exact Kept.refl s h
      | some a => exact kept_setProperty s a _ _ h ha
    | quickControls2Action =>
      simp only [QuickControls2Action.setShortcut]
      cases ha : s.m_action with
      | none => exact Kept.refl s h
      | some a =>
        simp only
        split <;> exact kept_native s a _ h ha (write_wiring a _ _).1 (write_wiring a _ _).2
  | setActionGroup g =>
    simp only [perform]
    cases s.backend with
    | widgetsAction =>
      simp only [WidgetsAction.setActionGroup]
      split
      · exact Kept.refl s h
      · cases ha : s.m_action with
        | none => exact Kept.refl s h
        | some a =>
          cases g with
          | none => exact Kept.refl s h
          | some g => exact kept_setProperty s a _ _ h ha
    | quickControls2Action =>
      simp only [QuickControls2Action.setActionGroup]
      split
      · exact Kept.refl s h
      · cases ha : s.m_action with
        | none => exact Kept.refl s h
        | some a =>
          simp only
          split <;> exact kept_native s a _ h ha (write_wiring a _ _).1 (write_wiring a _ _).2
  | setIcon icons n isSource =>
    simp only [perform]
    cases s.backend with
    | widgetsAction =>
      simp only [WidgetsAction.setIcon]
      cases ha : s.m_action with
      | none => exact Kept.refl s h
      | some a =>
        simp only
        repeat' split
        all_goals first
          | exact Kept.refl s h
          | exact kept_native s a _ h ha (setIcon_wiring a _).1 (setIcon_wiring a _).2
    | quickControls2Action =>
      simp only [QuickControls2Action.setIcon]
      cases ha : s.m_action with
      | none => exact Kept.refl s h
      | some a =>
        simp only
        repeat' split
        all_goals first
          | exact Kept.refl s h
          | exact kept_native s a _ h ha (write_wiring a _ _).1 (write_wiring a _ _).2

theorem constructed_fresh (s : PlatformAgnosticAction) (h : Constructed s) :
    s.m_text = "" ∧ ∃ a, s.m_action = some a := by
  cases h with
  | widgets parent => exact ⟨rfl, _, rfl⟩
  | quickControls2 q parent s hs =>
    unfold QuickControls2Action.new at hs
    split at hs
    · cases hs
    · split at hs
      · cases hs
      · split at hs
        · cases hs
        · split at hs
          · cases hs
          · cases hs
            exact ⟨rfl, _, rfl⟩
  | fromAction a s hs =>
    cases a with
    | none => cases hs
    | some a =>
      simp only [PlatformAgnosticAction.fromAction, WidgetsAction.setAction] at hs
      cases hq : a.isQAction with
      | false =>
        simp only [hq, Bool.not_false, if_true, Outcome.abort] at hs
        cases hs
      | true =>
        simp only [hq, Bool.not_true, Bool.false_eq_true, if_false, Outcome.done] at hs
        cases hs
        exact ⟨rfl, _, rfl⟩

theorem reachable_kept (init s : PlatformAgnosticAction) (h0 : init.m_text = "")
    (hr : ReachableFrom init s) : Kept init s := by
  induction hr with
  | start => exact Kept.refl init h0
  | call s c _ _ ih =>
    obtain ⟨ht, hb, hn⟩ := ih
    obtain ⟨ht', hb', hn'⟩ := perform_kept s c ht
    refine ⟨ht', hb'.trans hb, fun a ha => ?_⟩
    obtain ⟨b, hb1, hb2, hb3⟩ := hn a ha
    obtain ⟨d, hd1, hd2, hd3⟩ := hn' b hb1
    exact ⟨d, hd1, hd2.trans hb2, hd3.trans hb3⟩

theorem setText_shown (s : PlatformAgnosticAction) (a : NativeObject) (t : String)
    (h : s.m_text = "") (ha : s.m_action = some a) :
    s.setText t = Outcome.done { s with m_action := some (a.setProperty "text" (.string t)) } := by
  unfold PlatformAgnosticAction.setText PlatformAgnosticAction.action
  simp only [ha, isVisible_of_empty s h, if_true]

theorem setProperty_text (a : NativeObject) (t : String) :
    QAction.text (a.setProperty "text" (.string t)) = t := by
  unfold QAction.text NativeObject.property
  rw [setProperty_props_same a "text" _ (by decide)]
  rfl

theorem fileAction_reachable : ReachableFrom (WidgetsAction.new none) fileAction :=
  ReachableFrom.call (WidgetsAction.new none) (Call.setText "File") ReachableFrom.start (by decide)

/-- On an adapter whose text cache is empty `setVisible(false)` returns with the
cache empty again and the native text as it was. -/
theorem setVisible_false_shown (s : PlatformAgnosticAction) (a : NativeObject)
    (h : s.m_text = "") (ha : s.m_action = some a) :
    (s.setVisible false).fault = none ∧ (s.setVisible false).self.m_text = "" ∧
    nativeText (s.setVisible false).self = some (QAction.text a) := by
  unfold PlatformAgnosticAction.setVisible
  rw [isVisible_of_empty s h]
  simp only [Bool.true_beq, Bool.false_eq_true, if_false]
  unfold PlatformAgnosticAction.text PlatformAgnosticAction.action
  simp only [ha]
  unfold PlatformAgnosticAction.setText PlatformAgnosticAction.action
  simp only [ha, PlatformAgnosticAction.isVisible]
  by_cases hv : QString.isEmpty (a.property "text").toQString = true
  · rw [if_pos hv]
    have ht : (a.property "text").toQString = "" := (QString.isEmpty_iff _).1 hv
    refine ⟨rfl, ht, ?_⟩
    simp only [nativeText, Outcome.done, Option.map, setProperty_text]
    simp only [QAction.text, ht]
  · rw [if_neg hv]
    exact ⟨rfl, rfl, rfl⟩

theorem setVisible_true_shown (s : PlatformAgnosticAction) (h : s.isVisible = true) :
    s.setVisible true = Outcome.done s := by
  unfold PlatformAgnosticAction.setVisible
  rw [h]
  rfl

theorem quickNew_returned (q : Option QuickParent) (parent : Option Parent) :
    returned (QuickControls2Action.new q parent) = QuickControls2Action.constructible q := by
  unfold QuickControls2Action.new QuickControls2Action.constructible
  cases q with
  | none => rfl
  | some q =>
    obtain ⟨engine, created⟩ := q
    cases engine with
    | false => simp [returned]
    | true =>
      cases created with
      | none => simp [returned]
      | some a =>
        cases hq : a.isQQuickAction <;> simp [returned, hq]

theorem quickNew_ok (q : Option QuickParent) (parent : Option Parent)
    (s : PlatformAgnosticAction) (h : QuickControls2Action.new q parent = .ok s) :
    s.parent = parent ∧ s.backend = Backend.quickControls2Action := by
  unfold QuickControls2Action.new at h
  split at h
  · cases h
  · split at h
    · cases h
    · split at h
      · cases h
      · split at h
        · cases h
        · cases h
          exact ⟨rfl, rfl⟩

theorem startsWith_prepend (s p : String) : QString.startsWith (QString.prepend s p) p = true := by
  simp [QString.startsWith, QString.prepend, String.data_append]

theorem normalizeSource_startsWith (s : String) :
    QString.startsWith (QuickControls2Action.normalizeSource s) "qrc" = true := by
  unfold QuickControls2Action.normalizeSource
  by_cases h : QString.startsWith s "qrc" = true
  · simp [h]
  · simp [h, startsWith_prepend]

theorem normalizeSource_of_startsWith (s : String) (h : QString.startsWith s "qrc" = true) :
    QuickControls2Action.normalizeSource s = s := by
  simp [QuickControls2Action.normalizeSource, h]

theorem write_ok (a : NativeObject) (path : String) (v : QVariant)
    (h : (QQmlProperty.isValid a path && QQmlProperty.isWritable a path) = true) :
    QQmlProperty.write a path v = (a.store path v, true) := by
  simp [QQmlProperty.write, h]

theorem quick_setIcon_done (self : PlatformAgnosticAction) (a : NativeObject) (s : String)
    (isSource : Bool) (ha : self.m_action = some a)
    (h : (QQmlProperty.isValid a ("icon." ++ if isSource then "source" else "name") &&
          QQmlProperty.isWritable a ("icon." ++ if isSource then "source" else "name")) = true) :
    QuickControls2Action.setIcon self s isSource =
      Outcome.done { self with m_action := some (a.store ("icon." ++ if isSource then "source" else "name")
        (.string (if isSource then QuickControls2Action.normalizeSource s else s))) } := by
  unfold QuickControls2Action.setIcon
  simp only [ha]
  simp only [h, write_ok a _ _ h, Bool.not_true, Bool.false_eq_true, if_false]

theorem setProperty_text_visible (a : NativeObject) (t : String) (hq : a.isQAction = true)
    (hc : Connection.syncVisibility ∈ a.connections) (hne : a.props "text" ≠ .string t) :
    (a.setProperty "text" (.string t)).props "visible" = .bool (!QString.isEmpty t) := by
  unfold NativeObject.setProperty
  rw [if_neg hne]
  have hn : (a.isQAction && QAction.notifying.contains "text") = true := by
    rw [hq]; decide
  rw [if_pos hn, emitChanged_visible (a.store "text" (.string t)) hc]
  simp [QAction.text, NativeObject.property, store_props_same, QVariant.toQString]

theorem widgets_reachable (parent : Option Parent) (s : PlatformAgnosticAction)
    (hr : ReachableFrom (WidgetsAction.new parent) s) :
    s.m_text = "" ∧ ∃ a, s.m_action = some a ∧ a.isQAction = true ∧
      Connection.syncVisibility ∈ a.connections := by
  obtain ⟨ht, _, hn⟩ := reachable_kept _ s rfl hr
  obtain ⟨a, ha, hc, hq⟩ := hn _ rfl
  refine ⟨ht, a, ha, ?_, ?_⟩
  · rw [hq, setProperty_isQAction]; rfl
  · rw [hc, setProperty_connections]; decide

/-! ## The text cache and the emulated visibility -/

/-- C1: on a visible action whose native text is the non-empty `File`,
`setVisible(false)` should leave `File` in the cache `m_text`, an empty native text
and `isVisible()` false.  The code returns with the cache empty, the native text
still `File` and `isVisible()` true: `setText("")` runs after the cache has been
filled, finds the action already hidden and stores the empty string in the cache
instead of the native object. -/
theorem setVisible_false_keeps_text_shown :
    fileAction.isVisible = true ∧ nativeText fileAction = some "File" ∧
    (fileAction.setVisible false).fault = none ∧
    (fileAction.setVisible false).self.m_text = "" ∧
    nativeText (fileAction.setVisible false).self = some "File" ∧
    (fileAction.setVisible false).self.isVisible = true := by
  decide

/-- C2: for an action reached from construction through the setters whose
`text()` is `t`, `setVisible(false)` followed by `setVisible(true)` both return,
and afterwards the action is visible and `text()` is `t` again. -/
theorem hide_show_round_trip (init s : PlatformAgnosticAction) (t : String)
    (hc : Constructed init) (hr : ReachableFrom init s) (ht : s.text = .ok t) :
    (s.setVisible false).fault = none ∧
    ((s.setVisible false).self.setVisible true).fault = none ∧
    ((s.setVisible false).self.setVisible true).self.isVisible = true ∧
    ((s.setVisible false).self.setVisible true).self.text = .ok t := by
  obtain ⟨h0, a0, ha0⟩ := constructed_fresh init hc
  obtain ⟨hm, _, hn⟩ := reachable_kept init s h0 hr
  obtain ⟨a, ha, _, _⟩ := hn a0 ha0
  obtain ⟨hf, hm', hnt⟩ := setVisible_false_shown s a hm ha
  have hvis : (s.setVisible false).self.isVisible = true := isVisible_of_empty _ hm'
  have hshow := setVisible_true_shown (s.setVisible false).self hvis
  have hta : QAction.text a = t := by
    simp only [PlatformAgnosticAction.text, PlatformAgnosticAction.action, ha] at ht
    cases ht
    rfl
  rw [hshow]
  refine ⟨hf, rfl, hvis, ?_⟩
  simp only [Outcome.done]
  simp only [nativeText] at hnt
  unfold PlatformAgnosticAction.text PlatformAgnosticAction.action
  cases hb : (s.setVisible false).self.m_action with
  | none => rw [hb] at hnt; cases hnt
  | some b =>
    rw [hb] at hnt
    simp only [Option.map, Option.some.injEq] at hnt
    simp only
    rw [← hta, ← hnt]
    rfl

/-- The round trip of C2 on the action with the text `File`. -/
theorem hide_show_round_trip_witness :
    Constructed (WidgetsAction.new none) ∧ ReachableFrom (WidgetsAction.new none) fileAction ∧
    fileAction.text = .ok "File" ∧
    ((fileAction.setVisible false).fault = none ∧
    ((fileAction.setVisible false).self.setVisible true).fault = none ∧
    ((fileAction.setVisible false).self.setVisible true).self.isVisible = true ∧
    ((fileAction.setVisible false).self.setVisible true).self.text = .ok "File") :=
  ⟨Constructed.widgets none, fileAction_reachable, rfl,
   hide_show_round_trip (WidgetsAction.new none) fileAction "File" (Constructed.widgets none)
     fileAction_reachable rfl⟩

/-- C10: from a freshly constructed action and after any sequence of setter calls
that returned, the cache `m_text` is empty, so `isVisible()` is true, and
`setText(t)` returns having written `t` to the native text, so that `text()` is
`t` afterwards. -/
theorem text_cache_stays_empty (init s : PlatformAgnosticAction)
    (hc : Constructed init) (hr : ReachableFrom init s) :
    s.m_text = "" ∧ s.isVisible = true ∧
    ∀ t : String, (s.setText t).fault = none ∧
      nativeText (s.setText t).self = some t ∧ (s.setText t).self.text = .ok t := by
  obtain ⟨h0, a0, ha0⟩ := constructed_fresh init hc
  obtain ⟨ht, _, hn⟩ := reachable_kept init s h0 hr
  obtain ⟨a, ha, _, _⟩ := hn a0 ha0
  refine ⟨ht, isVisible_of_empty s ht, fun t => ?_⟩
  rw [setText_shown s a t ht ha]
  refine ⟨rfl, ?_, ?_⟩
  · simp only [nativeText, Outcome.done, Option.map, setProperty_text]
  · simp only [PlatformAgnosticAction.text, PlatformAgnosticAction.action, Outcome.done]
    exact congrArg Except.ok (setProperty_text a t)

/-- The invariant of C10 on the action with the text `File`. -/
theorem text_cache_stays_empty_witness :
    Constructed (WidgetsAction.new none) ∧ ReachableFrom (WidgetsAction.new none) fileAction ∧
    (fileAction.m_text = "" ∧ fileAction.isVisible = true ∧
    ∀ t : String, (fileAction.setText t).fault = none ∧
      nativeText (fileAction.setText t).self = some t ∧ (fileAction.setText t).self.text = .ok t) :=
  ⟨Constructed.widgets none, fileAction_reachable,
   text_cache_stays_empty (WidgetsAction.new none) fileAction (Constructed.widgets none) fileAction_reachable⟩

/-! ## The factory -/

/-- C3, as the claim has it: a parent of one of the five recognised classes never
makes `createAction` fail.  A `QQuickItem` made outside of any QML engine is of
a recognised class, and `createAction` aborts on it, in the constructor of
`QuickControls2Action` at `assert(engine)`. -/
theorem createAction_aborts_without_engine :
    (Parent.quickItem engineLessItem).recognised = true ∧
    returned (createAction (some (Parent.quickItem engineLessItem))) = false ∧
    createAction (some (Parent.quickItem engineLessItem)) = .error Fault.assertion := by
  refine ⟨by decide, by decide, rfl⟩

/-- C3, amended: an adapter that `createAction(parent)` returns is parented to
`parent`, and it is widget-backed for an absent parent, a widget menu and a
widget action group, scene-graph-backed for a scene-graph menu, action group
and item.  The call fails exactly when the parent is present and either of none
of the five recognised classes, where it reaches `Q_UNREACHABLE()`, or of a
scene-graph class with an assertion of the `QuickControls2Action` constructor
failing on the object handed over as `quickParent`. -/
theorem createAction_dispatch (parent : Option Parent) :
    (∀ s, createAction parent = .ok s →
      s.parent = parent ∧
      s.backend = (match parent with
        | none => Backend.widgetsAction
        | some p => if (p.quickParent).isSome then Backend.quickControls2Action
                    else Backend.widgetsAction)) ∧
    (returned (createAction parent) = false ↔
      ∃ p, parent = some p ∧
        (p.recognised = false ∨
          ∃ q, p.quickParent = some q ∧ QuickControls2Action.constructible q = false)) ∧
    (createAction (some Parent.other) = .error Fault.unreachable) := by
  refine ⟨?_, ?_, rfl⟩
  · intro s hs
    cases parent with
    | none => cases hs; exact ⟨rfl, rfl⟩
    | some p =>
      cases p with
      | widgetsMenu => cases hs; exact ⟨rfl, rfl⟩
      | widgetsActionGroup => cases hs; exact ⟨rfl, rfl⟩
      | quickControls2Menu q => exact quickNew_ok q _ s hs
      | quickControls2ActionGroup q => exact quickNew_ok q _ s hs
      | quickItem q => exact quickNew_ok (some q) _ s hs
      | other => cases hs
  · cases parent with
    | none => simp [createAction, returned]
    | some p =>
      cases p with
      | widgetsMenu => simp [createAction, returned, Parent.recognised, Parent.quickParent]
      | widgetsActionGroup => simp [createAction, returned, Parent.recognised, Parent.quickParent]
      | quickControls2Menu q =>
        simp [createAction, quickNew_returned, Parent.recognised, Parent.quickParent]
      | quickControls2ActionGroup q =>
        simp [createAction, quickNew_returned, Parent.recognised, Parent.quickParent]
      | quickItem q =>
        simp [createAction, quickNew_returned, Parent.recognised, Parent.quickParent]
      | other => simp [createAction, returned, Parent.recognised]

/-! ## The scene-graph relay -/

/-- C4: when the native `toggled` signal fires on a scene-graph action whose
checked state is `true`, `onToggled` should emit one `toggled` event with the
payload `true`.  The slot reads the property `toggled`, which the native action
does not have, and emits `toggled(false)`; `onTriggered` on the same object
reads `checked` and emits `triggered(true)`. -/
theorem onToggled_reads_toggled_property :
    createAction (some (Parent.quickItem engineItem)) = .ok quickAction ∧
    checkedQuickAction.m_action.map (fun o => o.property "checked") = some (.bool true) ∧
    checkedQuickAction.m_action.map (fun o => o.property "toggled") = some .invalid ∧
    QuickControls2Action.onToggled checkedQuickAction = .ok [Event.toggled false] ∧
    QuickControls2Action.onTriggered checkedQuickAction = .ok [Event.triggered true] := by
  refine ⟨rfl, by decide, by decide, rfl, rfl⟩

/-- C5: on a scene-graph action whose native `checked` property is `b`,
`onTriggered` emits exactly one abstract event, `triggered(b)`. -/
theorem onTriggered_relays_checked (self : PlatformAgnosticAction) (a : NativeObject) (b : Bool)
    (ha : self.m_action = some a) (hb : a.property "checked" = .bool b) :
    QuickControls2Action.onTriggered self = .ok [Event.triggered b] := by
  simp [QuickControls2Action.onTriggered, ha, hb, QVariant.toBool]

/-- The relay of C5 on the checked scene-graph action. -/
theorem onTriggered_relays_checked_witness :
    checkedQuickAction.m_action.map (fun o => o.property "checked") = some (.bool true) ∧
    QuickControls2Action.onTriggered checkedQuickAction = .ok [Event.triggered true] :=
  ⟨by decide, onTriggered_relays_checked checkedQuickAction _ true rfl (by decide)⟩

/-! ## Icons -/

/-- C6: on a scene-graph action whose native object has writable properties
`icon.source` and `icon.name`, `setIcon(s, true)` returns having written to
`icon.source` the string `s` itself when `s` starts with `qrc` and `qrc` followed
by `s` otherwise; the written value starts with `qrc`, and normalising it again
changes nothing; `setIcon(s, false)` returns having written `s` to `icon.name`,
with `icon.source` as it was. -/
theorem setIcon_normalises_source (self : PlatformAgnosticAction) (a : NativeObject) (s : String)
    (ha : self.m_action = some a)
    (hs : (QQmlProperty.isValid a "icon.source" && QQmlProperty.isWritable a "icon.source") = true)
    (hn : (QQmlProperty.isValid a "icon.name" && QQmlProperty.isWritable a "icon.name") = true) :
    ((QuickControls2Action.setIcon self s true).fault = none ∧
      (QuickControls2Action.setIcon self s true).self.m_action.map (fun o => o.property "icon.source")
        = some (.string (if QString.startsWith s "qrc" then s else "qrc" ++ s))) ∧
    QString.startsWith (QuickControls2Action.normalizeSource s) "qrc" = true ∧
    QuickControls2Action.normalizeSource (QuickControls2Action.normalizeSource s)
      = QuickControls2Action.normalizeSource s ∧
    ((QuickControls2Action.setIcon self s false).fault = none ∧
      (QuickControls2Action.setIcon self s false).self.m_action.map (fun o => o.property "icon.name")
        = some (.string s) ∧
      (QuickControls2Action.setIcon self s false).self.m_action.map (fun o => o.property "icon.source")
        = some (a.property "icon.source")) := by
  have e1 : ("icon." ++ if true = true then "source" else "name") = "icon.source" := by decide
  have e2 : ("icon." ++ if false = true then "source" else "name") = "icon.name" := by decide
  have h1 := quick_setIcon_done self a s true ha (by rw [e1]; exact hs)
  have h2 := quick_setIcon_done self a s false ha (by rw [e2]; exact hn)
  rw [e1] at h1
  rw [e2] at h2
  rw [h1, h2]
  refine ⟨⟨rfl, ?_⟩, normalizeSource_startsWith s,
    normalizeSource_of_startsWith _ (normalizeSource_startsWith s), rfl, ?_, ?_⟩
  · simp only [Outcome.done, Option.map, NativeObject.property, store_props_same, if_true]
    unfold QuickControls2Action.normalizeSource QString.prepend
    by_cases h : QString.startsWith s "qrc" = true <;> simp [h]
  · simp only [Outcome.done, Option.map, NativeObject.property, store_props_same]
    simp
  · simp only [Outcome.done, Option.map, NativeObject.property]
    rw [store_props_ne _ _ _ _ (by decide)]

/-- The normalisation of C6 on the scene-graph action `quickAction` and the path
`:/open.png`. -/
theorem setIcon_normalises_source_witness :
    quickAction.m_action.map (fun o =>
      QQmlProperty.isValid o "icon.source" && QQmlProperty.isWritable o "icon.source" &&
      (QQmlProperty.isValid o "icon.name" && QQmlProperty.isWritable o "icon.name")) = some true ∧
    (QuickControls2Action.setIcon quickAction ":/open.png" true).fault = none ∧
    (QuickControls2Action.setIcon quickAction ":/open.png" true).self.m_action.map
      (fun o => o.property "icon.source") = some (.string "qrc:/open.png") ∧
    (QuickControls2Action.setIcon quickAction ":/open.png" false).self.m_action.map
      (fun o => o.property "icon.name") = some (.string ":/open.png") :=
  ⟨by decide,
   (setIcon_normalises_source quickAction _ ":/open.png" rfl (by decide) (by decide)).1.1,
   (setIcon_normalises_source quickAction _ ":/open.png" rfl (by decide) (by decide)).1.2,
   (setIcon_normalises_source quickAction _ ":/open.png" rfl (by decide) (by decide)).2.2.2.2.1⟩

/-- C8: on a widget-backed action with its native action, `setIcon(s, isSource)`
returns exactly when the icon resolved from `s` (from the path for
`isSource == true`, from the theme otherwise) is non-null and, for
`isSource == false`, the theme has the name `s`; when it returns the native icon
is that resolved icon; when it aborts the adapter and its native action are as
they were. -/
theorem widgets_setIcon_contract (icons : IconResolver) (self : PlatformAgnosticAction)
    (a : NativeObject) (s : String) (isSource : Bool) (ha : self.m_action = some a) :
    ((WidgetsAction.setIcon icons self s isSource).completed = true ↔
      ((if isSource then icons.fromFile s else icons.fromTheme s).isNull = false ∧
        (isSource = false → icons.hasThemeIcon s = true))) ∧
    ((WidgetsAction.setIcon icons self s isSource).completed = true →
      nativeIcon (WidgetsAction.setIcon icons self s isSource).self
        = some (.icon (if isSource then icons.fromFile s else icons.fromTheme s))) ∧
    ((WidgetsAction.setIcon icons self s isSource).completed = false →
      (WidgetsAction.setIcon icons self s isSource).self = self) := by
  have hicon : ∀ i, nativeIcon { self with m_action := some (QAction.setIcon a i) } = some (.icon i) := by
    intro i
    simp only [nativeIcon, Option.map, QAction.icon, QAction.setIcon, NativeObject.property]
    rw [emitChanged_props _ _ (by decide), store_props_same]
  unfold WidgetsAction.setIcon
  simp only [ha]
  cases isSource with
  | true =>
    cases hn : (icons.fromFile s).isNull with
    | true => simp [hn, Outcome.abort, Outcome.completed]
    | false => simp [hn, Outcome.done, Outcome.completed, hicon]
  | false =>
    cases hth : icons.hasThemeIcon s with
    | false => simp [hth, Outcome.abort, Outcome.completed]
    | true =>
      cases hn : (icons.fromTheme s).isNull with
      | true => simp [hn, hth, Outcome.abort, Outcome.completed]
      | false => simp [hn, hth, Outcome.done, Outcome.completed, hicon]

/-- The contract of C8 on the action with the text `File` and the icon file
`:/open.png`. -/
theorem widgets_setIcon_contract_witness :
    (WidgetsAction.setIcon sampleIcons fileAction ":/open.png" true).completed = true ∧
    nativeIcon (WidgetsAction.setIcon sampleIcons fileAction ":/open.png" true).self
      = some (.icon (.loaded ":/open.png")) ∧
    (WidgetsAction.setIcon sampleIcons fileAction "edit-cut" false).completed = false :=
  ⟨by decide,
   (widgets_setIcon_contract sampleIcons fileAction _ ":/open.png" true rfl).2.1 (by decide),
   by decide⟩

/-! ## Native visibility in the widget backend -/

/-- C7: on every widget-backed action with a non-empty native text, `setText("")`
should turn the native visibility flag off.  On the action the constructor
built it does.  The adapter that `fromAction` puts around a `QAction` with the
text `Open` is widget-backed too, and after `setText("")` its native text is empty
with the native flag still on: `fromAction` connects `toggled` and `triggered` on
the wrapped `QAction` again but not the lambda on `changed`, which stays on the
`QAction` the constructor made. -/
theorem wrapped_action_stays_visible :
    fromAction (some openAction) = .ok wrappedOpenAction ∧
    wrappedOpenAction.backend = Backend.widgetsAction ∧
    nativeText wrappedOpenAction = some "Open" ∧
    (wrappedOpenAction.setText "").fault = none ∧
    nativeText (wrappedOpenAction.setText "").self = some "" ∧
    nativeVisible (wrappedOpenAction.setText "").self = some true ∧
    nativeText (fileAction.setText "").self = some "" ∧
    nativeVisible (fileAction.setText "").self = some false := by
  refine ⟨rfl, rfl, ?_, ?_, ?_, ?_, ?_, ?_⟩ <;> decide

/-- The constructor path: on a widget-backed action that the `WidgetsAction`
constructor built, in any state the setters lead to, with a non-empty native
text `u`, and for a non-empty `t`: `setText("")` returns with the native text
empty and the native visibility flag off, and a following `setText(t)` returns
with the native text `t` and the flag on; at both points the flag is on exactly
when the native text is non-empty. -/
theorem visibility_follows_text (parent : Option Parent) (s : PlatformAgnosticAction)
    (u t : String) (hr : ReachableFrom (WidgetsAction.new parent) s)
    (hu : nativeText s = some u) (hne : u ≠ "") (ht : t ≠ "") :
    ((s.setText "").fault = none ∧
      nativeText (s.setText "").self = some "" ∧
      nativeVisible (s.setText "").self = some false) ∧
    (((s.setText "").self.setText t).fault = none ∧
      nativeText ((s.setText "").self.setText t).self = some t ∧
      nativeVisible ((s.setText "").self.setText t).self = some true) := by
  obtain ⟨hm, a, ha, hq, hc⟩ := widgets_reachable parent s hr
  have hua : QAction.text a = u := by
    simp only [nativeText, ha, Option.map, Option.some.injEq] at hu
    exact hu
  have h1 : a.props "text" ≠ .string "" := by
    intro h
    apply hne
    rw [← hua]
    simp only [QAction.text, NativeObject.property, h, QVariant.toQString]
  have e1 := setText_shown s a "" hm ha
  have hv1 := setProperty_text_visible a "" hq hc h1
  have hp1 : (a.setProperty "text" (.string "")).props "text" = .string "" :=
    setProperty_props_same a "text" _ (by decide)
  have h2 : (a.setProperty "text" (.string "")).props "text" ≠ .string t := by
    rw [hp1]
    intro h
    injection h with h
    exact ht h.symm
  have e2 := setText_shown { s with m_action := some (a.setProperty "text" (.string "")) }
    (a.setProperty "text" (.string "")) t hm rfl
  have hv2 := setProperty_text_visible (a.setProperty "text" (.string "")) t
    (by rw [setProperty_isQAction]; exact hq) (by rw [setProperty_connections]; exact hc) h2
  have hne' : QString.isEmpty t = false := by
    cases h : QString.isEmpty t with
    | false => rfl
    | true => exact absurd ((QString.isEmpty_iff t).1 h) ht
  rw [e1]
  simp only [Outcome.done]
  rw [e2]
  refine ⟨⟨by trivial, ?_, ?_⟩, by trivial, ?_, ?_⟩
  · simp only [nativeText, Option.map, setProperty_text]
  · simp only [nativeVisible, Option.map, QAction.isVisible, NativeObject.property, hv1]
    rfl
  · simp only [nativeText, Outcome.done, Option.map, setProperty_text]
  · simp only [nativeVisible, Outcome.done, Option.map, QAction.isVisible, NativeObject.property, hv2,
      hne']
    rfl

/-- The constructor path on the action with the text `File` and the new text
`Edit`. -/
theorem visibility_follows_text_witness :
    ReachableFrom (WidgetsAction.new none) fileAction ∧ nativeText fileAction = some "File" ∧
    ((fileAction.setText "").fault = none ∧
      nativeText (fileAction.setText "").self = some "" ∧
      nativeVisible (fileAction.setText "").self = some false) ∧
    (((fileAction.setText "").self.setText "Edit").fault = none ∧
      nativeText ((fileAction.setText "").self.setText "Edit").self = some "Edit" ∧
      nativeVisible ((fileAction.setText "").self.setText "Edit").self = some true) :=
  ⟨fileAction_reachable, rfl,
   visibility_follows_text none fileAction "File" "Edit" fileAction_reachable rfl (by decide)
     (by decide)⟩

/-! ## Action groups -/

/-- C9: with an absent group, `setActionGroup` should return in both classes with
the native group membership cleared.  `QuickControls2Action::setActionGroup`
does, writing null to `ActionGroup.group`; `WidgetsAction::setActionGroup` passes
both assertions and then reads `m_actionGroup` through the null group pointer. -/
theorem widgets_setActionGroup_null_group :
    (WidgetsAction.setActionGroup fileAction none).fault = some Fault.nullDereference ∧
    (QuickControls2Action.setActionGroup quickAction none).fault = none ∧
    (QuickControls2Action.setActionGroup quickAction none).self.m_action.map
      (fun o => o.property "ActionGroup.group") = some (.object none) := by
  decide

end PlatformAgnosticMenus
